import Mathlib

/-!
# Verification of the BS-analytics-backend-stubs session / processing state machine

A shallow embedding of the Python backend (`resources/ambiguity.py`,
`resources/processing.py`, `resources/messages.py`, `resources/analytics.py`,
`config.py`, `db_service.py`, `models.py`) together with proofs about the
ambiguity question/answer bookkeeping, the background processing progress
simulation, the manual-stop transition, the error-boundary of the background
task, the configuration validation on processing start, and the canned report
generators.

Conventions of the embedding:
* JSON-text columns holding lists (questions, answers, stages) are modelled as
  Lean lists; statuses are the string values used by the source.
* Timestamps are irrelevant to the claims except as "was it written": they are
  modelled as `Option String` with a caller-supplied clock value.
* Python floats in the progress arithmetic are modelled as rationals `ℚ`
  (the exact values the formulas denote).
* `list(dict.fromkeys(l))` (order-preserving de-duplication keeping the first
  occurrence) is modelled by `pyDedup` below.
-/

namespace BSAnalytics

/-! ## config.py -/

/-- `Config.MIN_PROCESSING_TIME` (config.py:14). -/
def MIN_PROCESSING_TIME : Int := 3

/-- `Config.MAX_PROCESSING_TIME` (config.py:15). -/
def MAX_PROCESSING_TIME : Int := 30

/-- `Config.DEFAULT_PROCESSING_TIME` (config.py:16). -/
def DEFAULT_PROCESSING_TIME : Int := 6

/-- `Config.ANALYSIS_DEPTHS` (config.py:32). -/
def ANALYSIS_DEPTHS : List String := ["basic", "moderate", "deep"]

/-- `Config.REPORT_FORMATS` (config.py:33). -/
def REPORT_FORMATS : List String := ["executive", "detailed", "visual"]

/-- `Config.VALIDATION_LEVELS` (config.py:34). -/
def VALIDATION_LEVELS : List String := ["low", "medium", "high"]

/-- One entry of `Config.PROCESSING_STAGES` (config.py:45-53). -/
structure StageConfig where
  id : String
  name : String
  icon : String
  duration : ℚ
deriving DecidableEq, Repr, Inhabited

/-- `Config.PROCESSING_STAGES` (config.py:45-53). -/
def PROCESSING_STAGES : List StageConfig :=
  [ ⟨"planning", "Planning", "Database", 15⟩,
    ⟨"coding", "Coding", "Code", 25⟩,
    ⟨"verification", "In-conversation Verification", "TrendingUp", 20⟩,
    ⟨"execution", "Execution", "FileText", 20⟩,
    ⟨"fixing", "Code-fixing", "Code", 10⟩,
    ⟨"optimization", "Plan Optimization", "TrendingUp", 5⟩,
    ⟨"summarization", "Summarization", "FileText", 5⟩ ]

/-- `Config.DOMAIN_AMBIGUITY_QUESTIONS` (config.py:56-97), as an association
list preserving the dict's iteration order. -/
def DOMAIN_AMBIGUITY_QUESTIONS : List (String × List String) :=
  [ ("Finance",
      ["By \"regional differences\" - do you mean geographical regions, sales territories, or market segments?",
       "For \"customer acquisition metrics\" - should I include CAC, LTV, or specific conversion rates?"]),
    ("Marketing",
      ["By \"campaign performance\" - do you mean ROI, engagement rates, or conversion metrics?",
       "For \"audience segmentation\" - should I focus on demographics, behavior, or psychographics?"]),
    ("Sales",
      ["By \"sales performance\" - do you mean revenue, volume, or conversion rates?",
       "For \"territory analysis\" - should I segment by geography, industry, or account size?"]),
    ("Operations",
      ["By \"operational efficiency\" - do you mean cost reduction, time optimization, or quality metrics?",
       "For \"process analysis\" - should I focus on bottlenecks, resource allocation, or workflow optimization?"]),
    ("Human Resources",
      ["By \"employee performance\" - do you mean productivity, satisfaction, or retention metrics?",
       "For \"workforce analysis\" - should I segment by department, role level, or tenure?"]),
    ("Technology",
      ["By \"system performance\" - do you mean response time, throughput, or reliability metrics?",
       "For \"technology stack analysis\" - should I focus on infrastructure, applications, or security?"]),
    ("Customer Service",
      ["By \"service quality\" - do you mean response time, resolution rate, or customer satisfaction?",
       "For \"channel analysis\" - should I include phone, email, chat, or all support channels?"]),
    ("Product Management",
      ["By \"product performance\" - do you mean usage metrics, feature adoption, or user satisfaction?",
       "For \"product analysis\" - should I focus on individual features, product lines, or entire portfolio?"]),
    ("Supply Chain",
      ["By \"supply chain efficiency\" - do you mean cost, delivery time, or inventory optimization?",
       "For \"vendor analysis\" - should I focus on performance, cost, or risk assessment?"]),
    ("Legal",
      ["By \"legal analysis\" - do you mean compliance metrics, case outcomes, or risk assessment?",
       "For \"regulatory focus\" - should I prioritize specific jurisdictions or regulations?"]) ]

/-- Python's `dict.get(key, fallback)` on the question table. -/
def domainQuestionsGet (domain : String) (fallback : List String) : List String :=
  (DOMAIN_AMBIGUITY_QUESTIONS.lookup domain).getD fallback

/-- `Config.ADDITIONAL_QUESTIONS` (config.py:100-104). -/
def ADDITIONAL_QUESTIONS : List String :=
  [ "Should I include seasonal adjustments in the analysis?",
    "Do you want to segment by product categories or customer types?",
    "Are there any specific constraints or limitations to consider?" ]

/-! ## Order-preserving de-duplication

`list(dict.fromkeys(l))` keeps the *first* occurrence of each element in
order (Mathlib's `List.dedup` keeps the last, so it is not the right model).
-/

/-- `list(dict.fromkeys(l))`: drop later duplicates, keeping first
occurrences in order. -/
def pyDedup {α : Type} [DecidableEq α] : List α → List α
  | [] => []
  | a :: l => a :: pyDedup (l.filter (fun b => b ≠ a))
termination_by l => l.length
decreasing_by
  simp only [List.length_cons]
  exact Nat.lt_succ_of_le (List.length_filter_le _ l)

/-! ## Ambiguity resolution state (models.py `AmbiguityData`, the session's
`ambiguity`-typed message, and the owning `Session` row) -/

/-- The `AmbiguityData` row (models.py:121-133), without timestamps. -/
structure AmbiguityDataState where
  questions : List String
  answers : List String
  current_question_index : Nat
  status : String
deriving DecidableEq, Repr

/-- The ambiguity-specific fields of the session's `ambiguity`-typed message
(models.py:81-84), the ones `_update_ambiguity_message` writes. -/
structure AmbMessage where
  current_question : Option String
  answered_questions : Nat
  total_questions : Nat
  status : String
deriving DecidableEq, Repr

/-- The `Session` row fields the ambiguity/processing handlers touch
(models.py:46-47). -/
structure SessionState where
  current_step : String
  status : String
deriving DecidableEq, Repr

/-- The combined per-session state the ambiguity answer endpoints read and
write. -/
structure AmbSession where
  amb : AmbiguityDataState
  msg : AmbMessage
  session : SessionState
deriving DecidableEq, Repr

/-- `db_service.create_ambiguity_data` (db_service.py:148-159) composed with
the `ambiguity` message created by `_handle_initial_query`
(messages.py:184-197): the state in which a session enters the ambiguity
step. -/
def initialAmbSession (questions : List String) : AmbSession :=
  { amb := { questions := questions
             answers := []
             current_question_index := 0
             status := "active" }
    msg := { current_question := some (questions.getD 0 "")
             answered_questions := 0
             total_questions := questions.length
             status := "active" }
    session := { current_step := "ambiguity", status := "active" } }

/-- `AmbiguityAnswer._handle_single_answer` (ambiguity.py:271-351): append the
answer; if questions remain, advance the index and the pending message,
otherwise move the ambiguity data to `context_confirmation` and the session to
the `context` step. -/
def handleSingleAnswer (s : AmbSession) (answer : String) : AmbSession :=
  let current_answers := s.amb.answers
  let current_questions := s.amb.questions
  let new_answers := current_answers ++ [answer]
  let new_index := new_answers.length
  if new_answers.length < current_questions.length then
    let next_question := current_questions.getD new_answers.length ""
    { s with
      amb := { s.amb with
                 answers := new_answers
                 current_question_index := new_index }
      msg := { current_question := some next_question
               answered_questions := new_answers.length
               total_questions := current_questions.length
               status := "active" } }
  else
    { s with
      amb := { s.amb with
                 answers := new_answers
                 current_question_index := new_index
                 status := "context_confirmation" }
      msg := { current_question := none
               answered_questions := new_answers.length
               total_questions := current_questions.length
               status := "context_confirmation" }
      session := { s.session with current_step := "context" } }

/-- `AmbiguityAnswer._handle_batch_answers` (ambiguity.py:353-422): append the
whole batch; if the question count is reached, truncate to the question count
and transition to `context_confirmation`/`context`, otherwise advance to the
next unanswered question. -/
def handleBatchAnswers (s : AmbSession) (answers_batch : List String) : AmbSession :=
  let current_answers := s.amb.answers
  let current_questions := s.amb.questions
  let new_answers := current_answers ++ answers_batch
  let new_index := new_answers.length
  if current_questions.length ≤ new_answers.length then
    { s with
      amb := { s.amb with
                 answers := new_answers.take current_questions.length
                 current_question_index := current_questions.length
                 status := "context_confirmation" }
      msg := { current_question := none
               answered_questions := current_questions.length
               total_questions := current_questions.length
               status := "context_confirmation" }
      session := { s.session with current_step := "context" } }
  else
    let next_question := current_questions.getD new_answers.length ""
    { s with
      amb := { s.amb with
                 answers := new_answers
                 current_question_index := new_index }
      msg := { current_question := some next_question
               answered_questions := new_answers.length
               total_questions := current_questions.length
               status := "active" } }

/-- `AmbiguityResolve._continue_resolving` (ambiguity.py:92-165), restricted
to its effect on the stored question list.  `_clean_duplicate_questions`
(ambiguity.py:18-42) first persists the de-duplicated list; the handler then
re-reads it, de-duplicates again, and appends the configured additional
questions only when no extension has happened yet (detected by comparing with
the domain's initial question count, `dict.get` falling back to `[]`). -/
def continueResolvingQuestions (domain : String) (qs : List String) : List String :=
  let current_questions := pyDedup qs
  let cleaned_questions := pyDedup current_questions
  let initial_count := (domainQuestionsGet domain []).length
  if cleaned_questions.length ≤ initial_count then
    cleaned_questions ++ ADDITIONAL_QUESTIONS.filter (fun q => q ∉ cleaned_questions)
  else
    cleaned_questions


/-! ## Background processing simulator (resources/processing.py) -/

/-- One stage record of `ProcessingStatus.stages`
(db_service.py:209-220). -/
structure StageRec where
  id : String
  name : String
  icon : String
  status : String
  progress : ℚ
  started_at : Option String := none
  completed_at : Option String := none
deriving DecidableEq, Repr, Inhabited

/-- The stage list created by `db_service.create_processing_status`
(db_service.py:209-220): every configured stage `queued` at progress 0.
Parameterized by the configured stage list (the source binds
`Config.PROCESSING_STAGES` to a local `stages` variable and uses it
throughout). -/
def initStages (cfg : List StageConfig) : List StageRec :=
  cfg.map (fun sc =>
    { id := sc.id, name := sc.name, icon := sc.icon,
      status := "queued", progress := 0 })

/-- The `ProcessingStatus` row fields the simulator writes
(models.py:170-183), without timestamps. -/
structure ProcState where
  status : String
  current_stage : Nat
  overall_progress : ℚ
  stages : List StageRec
deriving DecidableEq, Repr

/-- `db_service.create_processing_status` (db_service.py:222-233). -/
def initProcState (cfg : List StageConfig) : ProcState :=
  { status := "processing", current_stage := 0, overall_progress := 0,
    stages := initStages cfg }

/-- In-place mutation of one list element (`stages_list[stage_index][...] = ...`). -/
def listModify {α : Type} (f : α → α) : Nat → List α → List α
  | _, [] => []
  | 0, a :: l => f a :: l
  | n + 1, a :: l => a :: listModify f n l

/-- `sum(stage['duration'] for stage in stages)` (processing.py:175). -/
def totalWeight (cfg : List StageConfig) : ℚ :=
  (cfg.map (fun sc => sc.duration)).sum

/-- `sum(stages[i]['duration'] for i in range(stage_index) if
stages_list[i]['status'] == 'completed')` (processing.py:173). -/
def completedWeight (cfg : List StageConfig) (stages_list : List StageRec)
    (stage_index : Nat) : ℚ :=
  ((List.range stage_index).map (fun i =>
    if (stages_list.getD i default).status = "completed"
    then (cfg.getD i default).duration else 0)).sum

/-- `steps = 10` (processing.py:160). -/
def PROGRESS_STEPS : Nat := 10

/-- The write at the top of a stage (processing.py:143-150): mark it
`processing` at progress 0, record a start timestamp and the current
stage index. -/
def stageStartWrite (ps : ProcState) (stage_index : Nat) : ProcState :=
  { ps with
    stages := listModify (fun r =>
        { r with status := "processing", started_at := some "t", progress := 0 })
      stage_index ps.stages
    current_stage := stage_index }

/-- One progress-increment write (processing.py:169-181):
`progress = (step / steps) * 100`, overall progress
`((completed_weight + (progress / 100) * duration) / total_weight) * 100`
capped with `min(..., 100)`. -/
def incrementWrite (cfg : List StageConfig) (ps : ProcState)
    (stage_index : Nat) (dur : ℚ) (step : Nat) : ProcState :=
  let progress : ℚ := ((step : ℚ) / (PROGRESS_STEPS : ℚ)) * 100
  let stages_list := listModify (fun r => { r with progress := progress })
    stage_index ps.stages
  let current_stage_contribution := (progress / 100) * dur
  let overall_progress :=
    ((completedWeight cfg stages_list stage_index + current_stage_contribution)
      / totalWeight cfg) * 100
  { ps with stages := stages_list
            overall_progress := min overall_progress 100 }

/-- The stage-completion write (processing.py:194-200): mark it `completed`
at progress 100 with a completion timestamp. -/
def stageCompleteWrite (ps : ProcState) (stage_index : Nat) : ProcState :=
  { ps with
    stages := listModify (fun r =>
        { r with status := "completed", progress := 100,
                 completed_at := some "t" })
      stage_index ps.stages }

/-- The inner `for step in range(steps + 1)` loop (processing.py:163-192):
run the given increment writes in order, returning the final state and the
trace of persisted snapshots. -/
def incrementRun (cfg : List StageConfig) (stage_index : Nat) (dur : ℚ) :
    ProcState → List Nat → ProcState × List ProcState
  | cur, [] => (cur, [])
  | cur, step :: rest =>
    let nxt := incrementWrite cfg cur stage_index dur step
    let r := incrementRun cfg stage_index dur nxt rest
    (r.1, nxt :: r.2)

/-- One iteration of the `for stage_index, stage_config in enumerate(stages)`
loop (processing.py:139-200): the start write, the `steps + 1` increment
writes, the completion write; returns the final state and the snapshot
trace. -/
def stageRun (cfg : List StageConfig) (ps : ProcState) (stage_index : Nat)
    (dur : ℚ) : ProcState × List ProcState :=
  let s0 := stageStartWrite ps stage_index
  let r := incrementRun cfg stage_index dur s0 (List.range (PROGRESS_STEPS + 1))
  let fin := stageCompleteWrite r.1 stage_index
  (fin, s0 :: r.2 ++ [fin])

/-- The whole stage loop over the (index, stage-config) pairs still to
process. -/
def stagesRun (cfg : List StageConfig) :
    ProcState → List (Nat × StageConfig) → ProcState × List ProcState
  | cur, [] => (cur, [])
  | cur, (stage_index, sc) :: rest =>
    let r := stageRun cfg cur stage_index sc.duration
    let r2 := stagesRun cfg r.1 rest
    (r2.1, r.2 ++ r2.2)

/-- The full sequence of `ProcessingStatus` snapshots persisted by an
uninterrupted `_process_analytics` run (processing.py:113-225): creation,
per-stage writes in order over `enumerate(stages)`, and the final
`completed`/100 write (processing.py:220-225). -/
def runSnapshots (cfg : List StageConfig) : List ProcState :=
  let r := stagesRun cfg (initProcState cfg) cfg.enum
  initProcState cfg :: r.2 ++
    [{ r.1 with status := "completed", overall_progress := 100 }]

/-- The snapshot trace of the configured run. -/
def processRunSnapshots : List ProcState := runSnapshots PROCESSING_STAGES

/-- `ProcessingStop.post`, per-stage transition (processing.py:597-603):
`processing` stages become `stopped` (with a completion timestamp), `queued`
stages become `cancelled`, all other stages are untouched. -/
def stopStageTransform (now : String) (stage : StageRec) : StageRec :=
  if stage.status = "processing" then
    { stage with status := "stopped", completed_at := some now }
  else if stage.status = "queued" then
    { stage with status := "cancelled" }
  else stage

/-- The stage list written by `ProcessingStop.post` (processing.py:595-608). -/
def processingStopStages (now : String) (stages : List StageRec) : List StageRec :=
  stages.map (stopStageTransform now)

/-! ## Error boundary of the background task (processing.py:268-283) -/

/-- One `ProcessingLog` row (models.py:224-232). -/
structure LogRec where
  message : String
  type : String
deriving DecidableEq, Repr

/-- The `ProcessingStatus` fields the error handler writes. -/
structure ProcStatusLite where
  status : String
  error : Option String
deriving DecidableEq, Repr

/-- The database state visible to the background task's error handler. -/
structure ProcDB where
  processing : Option ProcStatusLite
  logs : List LogRec
  session : SessionState
deriving DecidableEq, Repr

/-- `db_service.add_processing_log` (db_service.py:267-285): appends a log
row; returns without writing when no `ProcessingStatus` row exists. -/
def addProcessingLog (db : ProcDB) (message : String) (log_type : String) : ProcDB :=
  match db.processing with
  | none => db
  | some _ => { db with logs := db.logs ++ [{ message := message, type := log_type }] }

/-- `db_service.update_processing_status` restricted to the fields of
`ProcStatusLite` (db_service.py:241-253): no row, no write. -/
def updateProcStatusLite (db : ProcDB) (f : ProcStatusLite → ProcStatusLite) : ProcDB :=
  match db.processing with
  | none => db
  | some p => { db with processing := some (f p) }

/-- The `except` branch of `_process_analytics` (processing.py:268-283):
log the error text as an `error`-typed processing log and record
`status = 'failed'` with the error text; the session row is not touched. -/
def processExceptHandler (e : String) (db : ProcDB) : ProcDB :=
  let db1 := addProcessingLog db ("Processing error: " ++ e) "error"
  updateProcStatusLite db1 (fun p => { p with status := "failed", error := some e })

/-- The task boundary of `_process_analytics` (processing.py:113-283): the
body either finishes normally with a final database state, or raises with
the database state at the point of the exception; the `except` clause
converts the latter into persisted state.  The return type `ProcDB` (rather
than an `Except`) is the model of "never re-raised to any caller". -/
def processAnalyticsTask (body : ProcDB → ProcDB ⊕ (String × ProcDB))
    (db : ProcDB) : ProcDB :=
  match body db with
  | Sum.inl dbOk => dbOk
  | Sum.inr (e, dbAtRaise) => processExceptHandler e dbAtRaise

/-! ## Processing-start configuration validation (processing.py:32-51) -/

/-- The optional `config` fields of the processing-start request body. -/
structure ProcessingRequestConfig where
  processing_time : Option Int
  analytics_depth : Option String
  reporting_style : Option String
  cross_validation : Option String
deriving DecidableEq, Repr

/-- The `config_data` persisted on the new `ProcessingStatus` row. -/
structure StoredProcessingConfig where
  processing_time : Int
  analytics_depth : String
  reporting_style : String
  cross_validation : String
deriving DecidableEq, Repr

/-- `ProcessingStart.post`, parameter extraction and validation
(processing.py:36-51): each parameter defaults when the key is absent; only
`processing_time` is range-checked (out of `[MIN, MAX]` falls back to the
default); the three enum-valued parameters are stored as sent. -/
def processingStartConfig (cfg : ProcessingRequestConfig) : StoredProcessingConfig :=
  let processing_time := cfg.processing_time.getD DEFAULT_PROCESSING_TIME
  let analytics_depth := cfg.analytics_depth.getD "moderate"
  let reporting_style := cfg.reporting_style.getD "detailed"
  let cross_validation := cfg.cross_validation.getD "medium"
  let processing_time :=
    if processing_time < MIN_PROCESSING_TIME ∨ MAX_PROCESSING_TIME < processing_time
    then DEFAULT_PROCESSING_TIME else processing_time
  { processing_time := processing_time, analytics_depth := analytics_depth,
    reporting_style := reporting_style, cross_validation := cross_validation }

/-! ## Results endpoint verification status (resources/analytics.py) -/

/-- The categories of `AnalyticsResults._get_verification_status`
(analytics.py:136-140). -/
def VERIFICATION_STATUSES : List String := ["verified", "partial", "failed"]

/-- The weights of `AnalyticsResults._get_verification_status`
(analytics.py:139). -/
def VERIFICATION_WEIGHTS : List ℚ := [7/10, 2/10, 1/10]

/-- The `verification_status` field of the `AnalyticsResults.get` response
(analytics.py:44).  In the source the call is enclosed in quotation marks,
so the response carries the literal text of the expression, not a drawn
status. -/
def verificationStatusResponseValue : String := "self._get_verification_status()"


/-! ## Canned report generators (processing.py) -/

/-- The 'Finance' report template of `ProcessingStart._generate_analytics_result` (processing.py:334-520). -/
def REPORT_START_FINANCE : String :=
  "# Financial Performance Analysis Report

## Executive Summary
The analysis reveals significant growth trends across key financial metrics with notable improvements in revenue generation and cost optimization.

## Key Findings

### Revenue Performance
- **Total Revenue**: $12.4M (+18% YoY)
- **Quarterly Growth**: 22% increase from Q3 to Q4
- **Regional Distribution**:
  - North America: $6.2M (50%)
  - Europe: $3.7M (30%)
  - Asia-Pacific: $2.5M (20%)

### Cost Analysis
- **Customer Acquisition Cost (CAC)**: $450 (-15% from previous quarter)
- **Operating Expenses**: $8.1M (65% of revenue)
- **EBITDA Margin**: 35% (+5 percentage points YoY)

### Product Category Performance
| Category | Revenue | Growth | Market Share |
|----------|---------|--------|-------------|
| Enterprise | $5.8M | +25% | 47% |
| Mid-Market | $4.1M | +15% | 33% |
| SMB | $2.5M | +12% | 20% |

### Conversion Metrics
- **Lead-to-Customer Rate**: 24% (+6% improvement)
- **Average Deal Size**: $125K (+10% increase)
- **Sales Cycle**: 45 days (-5 days reduction)

## Recommendations
1. **Increase investment** in North American market given strong performance
2. **Optimize CAC** further through improved targeting
3. **Focus on Enterprise segment** for higher margins
4. **Implement pricing optimization** for Mid-Market segment

## Risk Assessment
- Currency fluctuation impact on international revenue
- Increasing competition in SMB segment
- Dependency on top 10 customers (35% of revenue)

---
*Analysis completed using BLUE SHERPA Cognitive Engine v2.0*"

/-- The 'Marketing' report template of `ProcessingStart._generate_analytics_result` (processing.py:334-520). -/
def REPORT_START_MARKETING : String :=
  "# Marketing Campaign Performance Analysis

## Campaign Overview
Multi-channel marketing analysis reveals strong digital performance with opportunities for traditional channel optimization.

## Performance Metrics

### Digital Marketing
- **Overall ROI**: 312% (+45% vs target)
- **Total Reach**: 2.4M unique users
- **Engagement Rate**: 8.2% (industry avg: 5.1%)
- **Conversion Rate**: 3.8%

### Channel Performance
| Channel | Spend | Revenue | ROI | Conversions |
|---------|-------|---------|-----|-------------|
| Google Ads | $250K | $1.1M | 440% | 2,840 |
| Social Media | $180K | $650K | 361% | 1,920 |
| Email | $45K | $380K | 844% | 1,450 |
| Content | $120K | $480K | 400% | 890 |

### Audience Insights
- **Top Performing Segments**:
  - Tech Professionals (CTR: 12.4%)
  - Decision Makers (Conv: 6.2%)
  - Early Adopters (LTV: $3,200)

### Campaign Effectiveness
- **Brand Awareness**: +34% lift
- **Consideration**: +28% increase
- **Purchase Intent**: +41% improvement

## Recommendations
1. **Scale email marketing** given exceptional ROI
2. **Refine social targeting** to tech professionals
3. **Test new creative formats** for display ads
4. **Implement attribution modeling** for better insights

---
*Powered by BLUE SHERPA Analytics Engine*"

/-- The 'Sales' report template of `ProcessingStart._generate_analytics_result` (processing.py:334-520). -/
def REPORT_START_SALES : String :=
  "# Sales Territory Performance Analysis

## Territory Overview
Comprehensive analysis of sales performance across all territories with focus on pipeline health and rep productivity.

## Territory Performance

### Regional Results
| Territory | Revenue | Target | Achievement | Pipeline |
|-----------|---------|--------|-------------|----------|
| Northeast | $3.2M | $2.8M | 114% | $8.5M |
| Southwest | $2.8M | $2.5M | 112% | $7.2M |
| Central | $2.4M | $2.6M | 92% | $6.1M |
| Pacific | $2.1M | $2.0M | 105% | $5.8M |

### Sales Rep Performance
- **Top Performers**: 8 reps exceeding 120% of quota
- **Average Quota Attainment**: 106%
- **New Rep Ramp Time**: 3.2 months (improved from 4.5)

### Pipeline Analysis
- **Total Pipeline Value**: $27.6M
- **Pipeline Coverage**: 3.2x (healthy)
- **Win Rate**: 28% (+3% QoQ)
- **Average Deal Size**: $95K

### Activity Metrics
- **Calls per Rep**: 48/day (+15%)
- **Meetings Booked**: 12/week
- **Proposals Sent**: 8/week
- **Close Rate**: 24%

## Key Insights
1. Northeast territory exceeding all metrics
2. Central territory needs additional support
3. Strong pipeline coverage indicates Q1 success
4. Win rates improving across all segments

## Recommendations
1. **Replicate Northeast** best practices
2. **Provide coaching** for Central territory
3. **Invest in sales enablement** tools
4. **Implement territory rebalancing** for Q2

---
*Analysis by BLUE SHERPA Sales Intelligence*"

/-- The 'Customer Service' report template of `ProcessingStart._generate_analytics_result` (processing.py:334-520). -/
def REPORT_START_CUSTOMER_SERVICE : String :=
  "# Customer Service Quality Analysis

## Service Performance Overview
Comprehensive analysis of customer service metrics revealing opportunities for response time optimization and satisfaction improvement.

## Key Metrics

### Response Performance
- **Average Response Time**: 2.4 hours (Target: 3 hours) ✅
- **First Contact Resolution**: 72% (+8% improvement)
- **Escalation Rate**: 12% (-3% reduction)
- **SLA Compliance**: 94%

### Channel Analysis
| Channel | Volume | Avg Response | CSAT | Resolution Rate |
|---------|--------|--------------|------|----------------|
| Phone | 8,420 | 3.2 min | 88% | 78% |
| Email | 12,350 | 4.1 hours | 82% | 68% |
| Chat | 15,680 | 45 seconds | 91% | 74% |
| Social | 3,240 | 1.8 hours | 85% | 65% |

### Customer Satisfaction
- **Overall CSAT**: 86% (+4% YoY)
- **NPS Score**: 52 (Excellent)
- **Customer Effort Score**: 3.2/5
- **Repeat Contact Rate**: 18%

### Agent Performance
- **Average Handle Time**: 6.8 minutes
- **Tickets per Agent**: 45/day
- **Quality Score**: 92%
- **Training Completion**: 96%

## Trending Issues
1. Password reset requests (18% of volume)
2. Billing inquiries (15%)
3. Feature requests (12%)
4. Technical support (35%)

## Recommendations
1. **Implement self-service** for password resets
2. **Enhance chat bot** capabilities
3. **Create knowledge base** for common issues
4. **Optimize email response** workflows

---
*BLUE SHERPA Service Analytics Platform*"

/-- The `results` mapping of `ProcessingStart._generate_analytics_result` (processing.py:336-518). -/
def processingStartResults : List (String × String) :=
  [ ("Finance", REPORT_START_FINANCE),
    ("Marketing", REPORT_START_MARKETING),
    ("Sales", REPORT_START_SALES),
    ("Customer Service", REPORT_START_CUSTOMER_SERVICE) ]

/-- `ProcessingStart._generate_analytics_result` (processing.py:334-520):
`results.get(domain, results['Finance'])`. -/
def generateAnalyticsResultStart (domain : String) : String :=
  (processingStartResults.lookup domain).getD REPORT_START_FINANCE

/-- The 'Finance' report template of `ProcessingComplete._generate_analytics_result` (processing.py:786-898). -/
def REPORT_COMPLETE_FINANCE : String :=
  "# Financial Performance Analysis Report

## Executive Summary
The analysis reveals significant growth trends across key financial metrics with notable improvements in revenue generation and cost optimization.

## Key Findings

### Revenue Performance
- **Total Revenue**: $12.4M (+18% YoY)
- **Quarterly Growth**: 22% increase from Q3 to Q4
- **Regional Distribution**:
  - North America: $6.2M (50%)
  - Europe: $3.7M (30%)
  - Asia-Pacific: $2.5M (20%)

### Cost Analysis
- **Customer Acquisition Cost (CAC)**: $450 (-15% from previous quarter)
- **Operating Expenses**: $8.1M (65% of revenue)
- **EBITDA Margin**: 35% (+5 percentage points YoY)

### Product Category Performance
| Category | Revenue | Growth | Market Share |
|----------|---------|--------|-------------|
| Enterprise | $5.8M | +25% | 47% |
| Mid-Market | $4.1M | +15% | 33% |
| SMB | $2.5M | +12% | 20% |

### Conversion Metrics
- **Lead-to-Customer Rate**: 24% (+6% improvement)
- **Average Deal Size**: $125K (+10% increase)
- **Sales Cycle**: 45 days (-5 days reduction)

## Recommendations
1. **Increase investment** in North American market given strong performance
2. **Optimize CAC** further through improved targeting
3. **Focus on Enterprise segment** for higher margins
4. **Implement pricing optimization** for Mid-Market segment

## Risk Assessment
- Currency fluctuation impact on international revenue
- Increasing competition in SMB segment
- Dependency on top 10 customers (35% of revenue)

*Generated by BLUE SHERPA Analytics Engine*"

/-- The 'Marketing' report template of `ProcessingComplete._generate_analytics_result` (processing.py:786-898). -/
def REPORT_COMPLETE_MARKETING : String :=
  "# Marketing Performance Analysis Report

## Executive Summary
Comprehensive analysis of marketing effectiveness reveals strong digital performance with opportunities for channel optimization.

## Key Metrics

### Campaign Performance
- **Total Campaigns**: 45 active campaigns
- **Average CTR**: 3.2% (+0.8% improvement)
- **Conversion Rate**: 12.5% (+2.1% YoY)
- **Cost Per Lead**: $35 (-12% optimization)

### Channel Analysis
- **Digital Channels**: 68% of total leads
- **Organic Search**: 34% of conversions
- **Paid Social**: 22% of conversions
- **Email Marketing**: 18% ROI

### Audience Insights
- **Primary Demographics**: 25-45 age group (62%)
- **Geographic Focus**: Urban markets (78%)
- **Engagement Rate**: 15.3% across channels

## Strategic Recommendations
1. **Expand organic search** investment
2. **Optimize social media** targeting
3. **Enhance email** personalization
4. **Develop mobile-first** strategies

*Generated by BLUE SHERPA Analytics Engine*"

/-- The 'Operations' report template of `ProcessingComplete._generate_analytics_result` (processing.py:786-898). -/
def REPORT_COMPLETE_OPERATIONS : String :=
  "# Operational Efficiency Analysis Report

## Executive Summary
Analysis reveals strong operational performance with identified optimization opportunities in process efficiency and resource allocation.

## Performance Metrics

### Efficiency Indicators
- **Overall Equipment Effectiveness**: 84% (+6% improvement)
- **Process Cycle Time**: 2.3 hours (-15% reduction)
- **Quality Rate**: 98.7% (+1.2% improvement)
- **Resource Utilization**: 89% (+4% optimization)

### Cost Analysis
- **Operational Costs**: $5.2M (-8% YoY)
- **Productivity Index**: 125 (+12 points)
- **Waste Reduction**: 23% decrease

### Process Optimization
- **Automation Level**: 67% of processes
- **Digital Transformation**: 78% completion
- **Staff Efficiency**: +19% productivity gain

## Strategic Initiatives
1. **Implement advanced automation** for remaining manual processes
2. **Optimize supply chain** logistics
3. **Enhance workforce** training programs
4. **Deploy predictive maintenance** systems

*Generated by BLUE SHERPA Analytics Engine*"

/-- The `results` mapping of `ProcessingComplete._generate_analytics_result` (processing.py:788-896). -/
def processingCompleteResults : List (String × String) :=
  [ ("Finance", REPORT_COMPLETE_FINANCE),
    ("Marketing", REPORT_COMPLETE_MARKETING),
    ("Operations", REPORT_COMPLETE_OPERATIONS) ]

/-- `ProcessingComplete._generate_analytics_result` (processing.py:786-898):
`results.get(domain, results['Finance'])`. -/
def generateAnalyticsResultComplete (domain : String) : String :=
  (processingCompleteResults.lookup domain).getD REPORT_COMPLETE_FINANCE

/-! ## Message creation (resources/messages.py) -/

/-- A `Message` row, restricted to the fields `MessagesCreate` writes
(models.py:70-90); unsupplied columns keep their model defaults. -/
structure Msg where
  type : String
  content : String
  status : String
  current_question : Option String := none
  answered_questions : Nat := 0
  total_questions : Nat := 0
deriving DecidableEq, Repr

/-- The `Session` row fields `MessagesCreate` reads and writes. -/
structure MsgSession where
  current_step : String
  domain : String
  status : String
deriving DecidableEq, Repr

/-- The database state visible to `MessagesCreate.post`. -/
structure MsgDB where
  session : MsgSession
  amb : Option AmbiguityDataState
  messages : List Msg
deriving DecidableEq, Repr

/-- The user message persisted by `MessagesCreate.post` (messages.py:95-101). -/
def userMessage (content : String) : Msg :=
  { type := "user", content := content, status := "completed" }

/-- `MessagesCreate._handle_initial_query` (messages.py:149-200): move the
session to the `ambiguity` step, create `AmbiguityData` with the domain's
question list (falling back to the Finance list for unknown domains), and
append the `ambiguity` message carrying the first question.  The
conversation-cycle row it also creates is outside this state. -/
def handleInitialQuery (db : MsgDB) (content : String) : MsgDB × List Msg :=
  let db1 := { db with session := { db.session with current_step := "ambiguity" } }
  let ambiguity_questions :=
    domainQuestionsGet db.session.domain (domainQuestionsGet "Finance" [])
  let db2 := { db1 with
    amb := some { questions := ambiguity_questions
                  answers := []
                  current_question_index := 0
                  status := "active" } }
  let ambiguity_message : Msg :=
    { type := "ambiguity"
      content := "I need to clarify a few domain-specific terms to ensure accurate analysis:"
      status := "active"
      current_question := some (ambiguity_questions.getD 0 "")
      answered_questions := 0
      total_questions := ambiguity_questions.length }
  ({ db2 with messages := db2.messages ++ [ambiguity_message] }, [ambiguity_message])

/-- `MessagesCreate._handle_ambiguity_response` (messages.py:202-206): the
method returns an empty response list immediately (everything after the
`return` is dead code); no state is read or written. -/
def handleAmbiguityResponse (db : MsgDB) (_content : String) : MsgDB × List Msg :=
  (db, [])

/-- `MessagesCreate._handle_followup_query` (messages.py:266-280): append a
canned assistant reply quoting the user's question. -/
def handleFollowupQuery (db : MsgDB) (content : String) : MsgDB × List Msg :=
  let assistant_message : Msg :=
    { type := "assistant"
      content := "Thank you for your follow-up question: \"" ++ content ++
        "\". This functionality would typically provide additional insights based on your query and the previous analysis context. The system would analyze your question in relation to the completed analytics session and provide relevant additional information or clarifications."
      status := "completed" }
  ({ db with messages := db.messages ++ [assistant_message] }, [assistant_message])

/-- `MessagesCreate.post` (messages.py:64-147), success path for a non-empty
`content`: persist the user message, then dispatch on the session's
`current_step` read before the insert; returns the new database state and
the handler's response messages. -/
def messagesCreatePost (db : MsgDB) (content : String) : MsgDB × List Msg :=
  let user_message := userMessage content
  let db1 := { db with messages := db.messages ++ [user_message] }
  if db.session.current_step = "query" then
    handleInitialQuery db1 content
  else if db.session.current_step = "ambiguity" then
    handleAmbiguityResponse db1 content
  else if db.session.current_step = "completed" then
    handleFollowupQuery db1 content
  else
    (db1, [])


/-! ## Relations and invariants for the progress-monotonicity proof -/

/-- Pointwise "no progress value decreased" between two persisted
`ProcessingStatus` snapshots: the overall progress and every stage's
progress are non-decreasing. -/
def progLe (s t : ProcState) : Prop :=
  s.overall_progress ≤ t.overall_progress ∧
  ∀ j, (s.stages.getD j default).progress ≤ (t.stages.getD j default).progress

/-- Loop invariant of `_process_analytics` at the entry of stage `k`:
stage records exist for every configured stage, every earlier stage is
`completed`, every later stage is still `queued` at progress 0, and the
persisted overall progress is at most 100 and at most the completed-weight
share. -/
def RunInv (cfg : List StageConfig) (k : Nat) (ps : ProcState) : Prop :=
  ps.stages.length = cfg.length ∧
  (∀ i, i < k → (ps.stages.getD i default).status = "completed") ∧
  (∀ i, k ≤ i → i < cfg.length →
    (ps.stages.getD i default).status = "queued" ∧
    (ps.stages.getD i default).progress = 0) ∧
  ps.overall_progress ≤ 100 ∧
  ps.overall_progress ≤ completedWeight cfg ps.stages k / totalWeight cfg * 100


/-! ## Theorems -/

theorem mem_pyDedup {α : Type} [DecidableEq α] (l : List α) (b : α) :
    b ∈ pyDedup l ↔ b ∈ l := by
  induction l using pyDedup.induct with
  | case1 => simp [pyDedup]
  | case2 a l ih =>
    simp only [pyDedup, List.mem_cons, ih, List.mem_filter, decide_eq_true_eq]
    constructor
    · rintro (rfl | ⟨hb, _⟩)
      · exact Or.inl rfl
      · exact Or.inr hb
    · rintro (rfl | hb)
      · exact Or.inl rfl
      · by_cases hba : b = a
        · exact Or.inl hba
        · exact Or.inr ⟨hb, hba⟩

theorem nodup_pyDedup {α : Type} [DecidableEq α] (l : List α) :
    (pyDedup l).Nodup := by
  induction l using pyDedup.induct with
  | case1 => simp [pyDedup]
  | case2 a l ih =>
    simp only [pyDedup, List.nodup_cons]
    refine ⟨?_, ih⟩
    intro hmem
    rw [mem_pyDedup] at hmem
    simp only [List.mem_filter, decide_eq_true_eq] at hmem
    exact hmem.2 rfl

theorem pyDedup_eq_self {α : Type} [DecidableEq α] (l : List α)
    (h : l.Nodup) : pyDedup l = l := by
  induction l using pyDedup.induct with
  | case1 => simp [pyDedup]
  | case2 a l ih =>
    rw [List.nodup_cons] at h
    have hfilter : l.filter (fun b => b ≠ a) = l := by
      apply List.filter_eq_self.mpr
      intro b hb
      simp only [decide_eq_true_eq]
      intro hba
      exact h.1 (hba ▸ hb)
    have ih' := ih (by rw [hfilter]; exact h.2)
    rw [hfilter] at ih'
    simp only [pyDedup, hfilter, ih']



/-! ### Helper facts for `continueResolvingQuestions` -/

theorem continueResolving_normal_form (domain : String) (l : List String) :
    continueResolvingQuestions domain l =
      (if (pyDedup l).length ≤ (domainQuestionsGet domain []).length
       then pyDedup l ++ ADDITIONAL_QUESTIONS.filter (fun q => q ∉ pyDedup l)
       else pyDedup l) := by
  simp only [continueResolvingQuestions]
  rw [pyDedup_eq_self (pyDedup l) (nodup_pyDedup l)]

/-- **C2**: the "continue_resolving" extension is idempotent on the stored
question list: applying `_continue_resolving` twice yields the same
question list as applying it once (same list, hence same length and the
same element set). -/
theorem c2_continue_resolving_idempotent (domain : String) (qs : List String) :
    continueResolvingQuestions domain (continueResolvingQuestions domain qs) =
      continueResolvingQuestions domain qs := by
  have hadd : ADDITIONAL_QUESTIONS.Nodup := by decide
  rw [continueResolving_normal_form, continueResolving_normal_form]
  set k := (domainQuestionsGet domain []).length with hk
  set c := pyDedup qs with hc
  have hcnd : c.Nodup := nodup_pyDedup qs
  by_cases h : c.length ≤ k
  · rw [if_pos h]
    set f := ADDITIONAL_QUESTIONS.filter (fun q => q ∉ c) with hf
    have hfnd : f.Nodup := hadd.filter _
    have hdisj : c.Disjoint f := by
      intro x hxc hxf
      rw [hf, List.mem_filter] at hxf
      have hnotc : x ∉ c := by simpa using hxf.2
      exact hnotc hxc
    have he : (c ++ f).Nodup := hcnd.append hfnd hdisj
    rw [pyDedup_eq_self _ he]
    by_cases h2 : (c ++ f).length ≤ k
    · rw [if_pos h2]
      have hnil : ADDITIONAL_QUESTIONS.filter (fun q => q ∉ (c ++ f)) = [] := by
        rw [List.filter_eq_nil_iff]
        intro a ha
        simp only [decide_eq_true_eq, Decidable.not_not]
        by_cases hac : a ∈ c
        · exact List.mem_append_left f hac
        · refine List.mem_append_right c ?_
          rw [hf, List.mem_filter]
          exact ⟨ha, by simpa using hac⟩
      rw [hnil, List.append_nil]
    · rw [if_neg h2]
  · rw [if_neg h, pyDedup_eq_self c hcnd, if_neg h]

/-- **C1** (counterexample): from the Finance initial ambiguity state, three
successful single-answer submissions are accepted, and afterwards the
answer list is strictly longer than the question list, violating
`len(answers) <= len(questions)`. -/
theorem c1_counterexample :
    (handleSingleAnswer (handleSingleAnswer (handleSingleAnswer
      (initialAmbSession (domainQuestionsGet "Finance" []))
        "geographic regions") "CAC and LTV") "one more detail").amb.questions.length
    < (handleSingleAnswer (handleSingleAnswer (handleSingleAnswer
      (initialAmbSession (domainQuestionsGet "Finance" []))
        "geographic regions") "CAC and LTV") "one more detail").amb.answers.length := by
  decide

/-- **C1** (amended): after any successful answer submission
`current_question_index == len(answers)`; a batch submission always leaves
`len(answers) <= len(questions)`; a single-answer submission preserves
`len(answers) <= len(questions)` provided not all questions were already
answered (without that proviso it can exceed the question count, as the
counterexample shows). -/
theorem c1_amended (s : AmbSession) (a : String) (b : List String) :
    (handleSingleAnswer s a).amb.current_question_index
        = (handleSingleAnswer s a).amb.answers.length
    ∧ (handleBatchAnswers s b).amb.current_question_index
        = (handleBatchAnswers s b).amb.answers.length
    ∧ (handleBatchAnswers s b).amb.answers.length
        ≤ (handleBatchAnswers s b).amb.questions.length
    ∧ (s.amb.answers.length < s.amb.questions.length →
        (handleSingleAnswer s a).amb.answers.length
          ≤ (handleSingleAnswer s a).amb.questions.length) := by
  refine ⟨?_, ?_, ?_, ?_⟩
  · simp only [handleSingleAnswer]
    split <;> simp
  · simp only [handleBatchAnswers]
    split <;> simp_all [List.length_take] <;> omega
  · simp only [handleBatchAnswers]
    split <;> simp_all [List.length_take] <;> omega
  · intro hlt
    simp only [handleSingleAnswer]
    split <;> simp_all <;> omega

/-- **C1** (witness for the amended theorem): instantiation at the Finance
initial state with answers pending. -/
theorem c1_amended_witness :
    (handleSingleAnswer (initialAmbSession (domainQuestionsGet "Finance" []))
        "geographic regions").amb.answers.length
      ≤ (handleSingleAnswer (initialAmbSession (domainQuestionsGet "Finance" []))
        "geographic regions").amb.questions.length :=
  (c1_amended (initialAmbSession (domainQuestionsGet "Finance" []))
    "geographic regions" ["x"]).2.2.2 (by decide)

/-- **C5**: while a run is in progress (every stage still `queued`,
`processing`, or `completed`), the manual stop maps exactly the
`processing` stages to `stopped`, exactly the `queued` stages to
`cancelled`, and leaves every `completed` stage's record (status, progress,
timestamps) unchanged. -/
theorem c5_stop_frame (stages : List StageRec) (now : String)
    (h : ∀ s ∈ stages,
      s.status = "queued" ∨ s.status = "processing" ∨ s.status = "completed") :
    (processingStopStages now stages).length = stages.length
    ∧ ∀ i, i < stages.length →
        (((stages.getD i default).status = "processing") ↔
          (((processingStopStages now stages).getD i default).status = "stopped"))
        ∧ (((stages.getD i default).status = "queued") ↔
          (((processingStopStages now stages).getD i default).status = "cancelled"))
        ∧ (((stages.getD i default).status = "completed") →
          (processingStopStages now stages).getD i default = stages.getD i default) := by
  constructor
  · simp [processingStopStages]
  · intro i hi
    have hgd : (processingStopStages now stages).getD i default
        = stopStageTransform now (stages.getD i default) := by
      unfold processingStopStages
      rw [List.getD_eq_getElem _ _ (by simpa using hi), List.getD_eq_getElem _ _ hi]
      simp
    have hmem : stages.getD i default ∈ stages := by
      rw [List.getD_eq_getElem _ _ hi]
      exact List.getElem_mem hi
    rcases h _ hmem with hs | hs | hs <;>
      rw [hgd] <;>
      simp only [stopStageTransform, hs] <;>
      simp_all


/-- **C5** (witness): a three-stage snapshot with one completed, one
in-flight and one queued stage. -/
theorem c5_stop_frame_witness :
    ((([⟨"planning", "Planning", "Database", "completed", 100, some "t0", some "t0"⟩,
      ⟨"coding", "Coding", "Code", "processing", 30, some "t0", none⟩,
      ⟨"verification", "In-conversation Verification", "TrendingUp", "queued", 0, none, none⟩]
        : List StageRec).getD 1 default).status = "processing") ↔
    ((processingStopStages "t1"
      [⟨"planning", "Planning", "Database", "completed", 100, some "t0", some "t0"⟩,
       ⟨"coding", "Coding", "Code", "processing", 30, some "t0", none⟩,
       ⟨"verification", "In-conversation Verification", "TrendingUp", "queued", 0, none, none⟩]).getD
        1 default).status = "stopped" :=
  ((c5_stop_frame
    [⟨"planning", "Planning", "Database", "completed", 100, some "t0", some "t0"⟩,
     ⟨"coding", "Coding", "Code", "processing", 30, some "t0", none⟩,
     ⟨"verification", "In-conversation Verification", "TrendingUp", "queued", 0, none, none⟩]
    "t1" (by decide)).2 1 (by decide)).1

/-- **C6**: an exception raised by the background processing body is caught
at the task boundary (the boundary is a total function back into database
states, so nothing is re-raised), recorded as an `error`-typed processing
log carrying the error text and as `ProcessingStatus.status = 'failed'`
with the text retained, and the session row (hence its `current_step`) is
left exactly as it was when the exception occurred. -/
theorem c6_error_boundary (body : ProcDB → ProcDB ⊕ (String × ProcDB))
    (db dbAtRaise : ProcDB) (e : String)
    (hbody : body db = Sum.inr (e, dbAtRaise))
    (hproc : dbAtRaise.processing.isSome) :
    processAnalyticsTask body db = processExceptHandler e dbAtRaise
    ∧ (processAnalyticsTask body db).logs =
        dbAtRaise.logs ++ [⟨"Processing error: " ++ e, "error"⟩]
    ∧ (processAnalyticsTask body db).processing.map (fun p => p.status) = some "failed"
    ∧ (processAnalyticsTask body db).processing.bind (fun p => p.error) = some e
    ∧ (processAnalyticsTask body db).session = dbAtRaise.session := by
  have htask : processAnalyticsTask body db = processExceptHandler e dbAtRaise := by
    unfold processAnalyticsTask
    rw [hbody]
  rcases hp : dbAtRaise.processing with _ | p
  · rw [hp] at hproc; simp at hproc
  · refine ⟨htask, ?_, ?_, ?_, ?_⟩ <;>
      rw [htask] <;>
      simp [processExceptHandler, addProcessingLog, updateProcStatusLite, hp]

/-- **C6** (witness): a body that raises `"boom"` over a live processing row. -/
theorem c6_error_boundary_witness :
    processAnalyticsTask (fun d => Sum.inr ("boom", d))
        ⟨some ⟨"processing", none⟩, [], ⟨"processing", "processing"⟩⟩
      = processExceptHandler "boom"
        ⟨some ⟨"processing", none⟩, [], ⟨"processing", "processing"⟩⟩ :=
  (c6_error_boundary (fun d => Sum.inr ("boom", d))
    ⟨some ⟨"processing", none⟩, [], ⟨"processing", "processing"⟩⟩
    ⟨some ⟨"processing", none⟩, [], ⟨"processing", "processing"⟩⟩
    "boom" rfl rfl).1

/-- **C7** (counterexample): the enum-valued parameters are not validated:
a start request carrying out-of-enum depth/style/validation values is
stored verbatim instead of being replaced by defaults. -/
theorem c7_counterexample :
    (processingStartConfig
      ⟨some 10, some "bogus", some "casual", some "extreme"⟩).analytics_depth = "bogus"
    ∧ "bogus" ∉ ANALYSIS_DEPTHS
    ∧ (processingStartConfig
      ⟨some 10, some "bogus", some "casual", some "extreme"⟩).reporting_style = "casual"
    ∧ "casual" ∉ REPORT_FORMATS
    ∧ (processingStartConfig
      ⟨some 10, some "bogus", some "casual", some "extreme"⟩).cross_validation = "extreme"
    ∧ "extreme" ∉ VALIDATION_LEVELS := by
  decide

/-- **C7** (amended): only `processing_time` is validated: a value below the
configured minimum or above the configured maximum is replaced by the
configured default (and the start proceeds rather than erroring), an
in-range value is kept, while depth, style and validation level are stored
exactly as sent, with defaults only for absent keys. -/
theorem c7_amended (pt : Int) (d r v : String) :
    ((pt < MIN_PROCESSING_TIME ∨ MAX_PROCESSING_TIME < pt) →
      (processingStartConfig ⟨some pt, some d, some r, some v⟩).processing_time
        = DEFAULT_PROCESSING_TIME)
    ∧ (MIN_PROCESSING_TIME ≤ pt → pt ≤ MAX_PROCESSING_TIME →
      (processingStartConfig ⟨some pt, some d, some r, some v⟩).processing_time = pt)
    ∧ (processingStartConfig ⟨some pt, some d, some r, some v⟩).analytics_depth = d
    ∧ (processingStartConfig ⟨some pt, some d, some r, some v⟩).reporting_style = r
    ∧ (processingStartConfig ⟨some pt, some d, some r, some v⟩).cross_validation = v := by
  refine ⟨?_, ?_, ?_, ?_, ?_⟩ <;>
    unfold processingStartConfig <;>
    simp only [Option.getD_some] <;>
    first
      | (intro h; rw [if_pos h])
      | (intro h1 h2; rw [if_neg (by omega)])
      | split <;> rfl

/-- **C7** (witness): a duration below the minimum is replaced by the
default. -/
theorem c7_amended_witness :
    (processingStartConfig
      ⟨some 2, some "moderate", some "detailed", some "medium"⟩).processing_time
      = DEFAULT_PROCESSING_TIME :=
  (c7_amended 2 "moderate" "detailed" "medium").1 (Or.inl (by decide))

/-- **C8**: the `verification_status` value returned by the synchronous
get-results endpoint is the constant string
`"self._get_verification_status()"` (the source quotes the call), which is
not one of the weighted-draw categories `verified`/`partial`/`failed`; no
random draw reaches the response. -/
theorem c8_verification_status_literal :
    verificationStatusResponseValue = "self._get_verification_status()"
    ∧ verificationStatusResponseValue ∉ VERIFICATION_STATUSES := by
  decide

/-- **C9** (counterexample): for the session domain `"Sales"` the timed
loop's final report and the force-complete final report differ (the first
uses its Sales template, the second falls back to its own Finance
template). -/
theorem c9_counterexample :
    generateAnalyticsResultStart "Sales" ≠ generateAnalyticsResultComplete "Sales" := by
  simp [generateAnalyticsResultStart, generateAnalyticsResultComplete,
    processingStartResults, processingCompleteResults, List.lookup,
    REPORT_START_SALES, REPORT_COMPLETE_FINANCE]

/-- **C9** (amended): each entry point draws from its own fixed mapping --
the timed loop maps Finance/Marketing/Sales/Customer Service, the
force-complete path maps Finance/Marketing/Operations -- and each falls
back to its own Finance template for unknown domains; the two mappings
produce different report content (already for the shared Finance key). -/
theorem c9_amended (dom : String)
    (hs : dom ∉ ["Finance", "Marketing", "Sales", "Customer Service"])
    (hc : dom ∉ ["Finance", "Marketing", "Operations"]) :
    generateAnalyticsResultStart dom = REPORT_START_FINANCE
    ∧ generateAnalyticsResultComplete dom = REPORT_COMPLETE_FINANCE
    ∧ REPORT_START_FINANCE ≠ REPORT_COMPLETE_FINANCE := by
  simp only [List.mem_cons, List.not_mem_nil, or_false, not_or] at hs hc
  have b1 : (dom == "Finance") = false := beq_eq_false_iff_ne.mpr hs.1
  have b2 : (dom == "Marketing") = false := beq_eq_false_iff_ne.mpr hs.2.1
  have b3 : (dom == "Sales") = false := beq_eq_false_iff_ne.mpr hs.2.2.1
  have b4 : (dom == "Customer Service") = false := beq_eq_false_iff_ne.mpr hs.2.2.2
  have b5 : (dom == "Operations") = false := beq_eq_false_iff_ne.mpr hc.2.2
  refine ⟨?_, ?_, ?_⟩
  · simp [generateAnalyticsResultStart, processingStartResults, List.lookup,
      b1, b2, b3, b4]
  · simp [generateAnalyticsResultComplete, processingCompleteResults, List.lookup,
      b1, b2, b5]
  · simp [REPORT_START_FINANCE, REPORT_COMPLETE_FINANCE]

/-- **C9** (witness): instantiation at the unknown domain `"Legal"`. -/
theorem c9_amended_witness :
    generateAnalyticsResultStart "Legal" = REPORT_START_FINANCE :=
  (c9_amended "Legal" (by decide) (by decide)).1

/-- **C10**: while the session is at the `ambiguity` step, a successful
message-create call persists exactly the one user message: the
`AmbiguityData` row, the session row (in particular `current_step`) are
unchanged, and the handler contributes no response messages. -/
theorem c10_ambiguity_message_frame (db : MsgDB) (content : String)
    (hstep : db.session.current_step = "ambiguity") (_hne : content ≠ "") :
    (messagesCreatePost db content).1.messages = db.messages ++ [userMessage content]
    ∧ (messagesCreatePost db content).1.amb = db.amb
    ∧ (messagesCreatePost db content).1.session = db.session
    ∧ (messagesCreatePost db content).2 = [] := by
  simp only [messagesCreatePost, hstep]
  simp [handleAmbiguityResponse, userMessage]

/-- **C10** (witness): a concrete ambiguity-step session receiving one user
message. -/
theorem c10_ambiguity_message_frame_witness :
    (messagesCreatePost
      ⟨⟨"ambiguity", "Finance", "active"⟩,
       some ⟨domainQuestionsGet "Finance" [], [], 0, "active"⟩, []⟩ "hello").1.amb
    = some ⟨domainQuestionsGet "Finance" [], [], 0, "active"⟩ :=
  (c10_ambiguity_message_frame
    ⟨⟨"ambiguity", "Finance", "active"⟩,
     some ⟨domainQuestionsGet "Finance" [], [], 0, "active"⟩, []⟩ "hello"
    rfl (by decide)).2.1



/-! ### Batch answers versus one-at-a-time answers (C3) -/

theorem handleBatch_after_single (s : AmbSession) (a : String) (rest : List String)
    (hlt : (s.amb.answers ++ [a]).length < s.amb.questions.length) :
    handleBatchAnswers (handleSingleAnswer s a) rest = handleBatchAnswers s (a :: rest) := by
  simp only [handleSingleAnswer]
  rw [if_pos hlt]
  simp only [handleBatchAnswers]
  rw [show s.amb.answers ++ a :: rest = (s.amb.answers ++ [a]) ++ rest from
    List.append_cons s.amb.answers a rest]

theorem foldl_single_eq_batch (b : List String) : ∀ (s : AmbSession), b ≠ [] →
    s.amb.answers.length + b.length = s.amb.questions.length →
    b.foldl handleSingleAnswer s = handleBatchAnswers s b := by
  induction b with
  | nil => intro s h _; exact absurd rfl h
  | cons a rest ih =>
    intro s _ hlen
    by_cases hr : rest = []
    · subst hr
      simp only [List.foldl_cons, List.foldl_nil]
      have h1 : (s.amb.answers ++ [a]).length = s.amb.questions.length := by
        simp only [List.length_append, List.length_cons, List.length_nil] at hlen ⊢
        omega
      have htake : (s.amb.answers ++ [a]).take s.amb.questions.length
          = s.amb.answers ++ [a] := by
        rw [← h1]
        exact List.take_length _
      simp only [handleSingleAnswer, handleBatchAnswers]
      rw [if_neg (by omega), if_pos (by omega)]
      simp [htake, h1]
    · have hrlen : 0 < rest.length := List.length_pos.mpr hr
      have hlt : (s.amb.answers ++ [a]).length < s.amb.questions.length := by
        simp only [List.length_append, List.length_cons, List.length_nil] at hlen ⊢
        omega
      rw [List.foldl_cons, ih (handleSingleAnswer s a) hr ?hl,
        handleBatch_after_single s a rest hlt]
      case hl =>
        simp only [handleSingleAnswer]
        rw [if_pos hlt]
        simp only [List.length_append, List.length_cons, List.length_nil] at hlen ⊢
        omega

/-- **C3**: from a state with no answers yet and a non-empty question list,
submitting all answers as one batch transitions in that one call to
AmbiguityData status `context_confirmation` and session step `context`, and
the resulting state (answers, index, status, message fields, session) is
exactly the state obtained by submitting the same answers one at a time
through the single-answer path. -/
theorem c3_batch_refines_single (s : AmbSession) (b : List String)
    (hempty : s.amb.answers = []) (hqne : s.amb.questions ≠ [])
    (hlen : b.length = s.amb.questions.length) :
    handleBatchAnswers s b = b.foldl handleSingleAnswer s
    ∧ (handleBatchAnswers s b).amb.status = "context_confirmation"
    ∧ (handleBatchAnswers s b).session.current_step = "context" := by
  have hbne : b ≠ [] := by
    intro hb
    subst hb
    simp only [List.length_nil] at hlen
    exact hqne (List.eq_nil_of_length_eq_zero hlen.symm)
  have hcond : s.amb.questions.length ≤ (s.amb.answers ++ b).length := by
    rw [hempty]
    simp [hlen]
  refine ⟨(foldl_single_eq_batch b s hbne (by rw [hempty]; simpa using hlen)).symm, ?_, ?_⟩
  · simp only [handleBatchAnswers]
    rw [if_pos hcond]
  · simp only [handleBatchAnswers]
    rw [if_pos hcond]

/-- **C3** (witness): the Finance question pair answered as one batch. -/
theorem c3_batch_refines_single_witness :
    handleBatchAnswers (initialAmbSession (domainQuestionsGet "Finance" []))
        ["geographic regions", "CAC and LTV"]
      = ["geographic regions", "CAC and LTV"].foldl handleSingleAnswer
          (initialAmbSession (domainQuestionsGet "Finance" [])) :=
  (c3_batch_refines_single (initialAmbSession (domainQuestionsGet "Finance" []))
    ["geographic regions", "CAC and LTV"] rfl (by decide) (by decide)).1



/-! ### Progress monotonicity of the background run (C4) -/

theorem listModify_length {α : Type} (f : α → α) :
    ∀ (k : Nat) (l : List α), (listModify f k l).length = l.length := by
  intro k l
  induction l generalizing k with
  | nil => cases k <;> rfl
  | cons a t ih =>
    cases k with
    | zero => rfl
    | succ n => simp [listModify, ih]

theorem listModify_getD_ne {α : Type} (f : α → α) (d : α) :
    ∀ (k i : Nat) (l : List α), i ≠ k →
      (listModify f k l).getD i d = l.getD i d := by
  intro k i l
  induction l generalizing k i with
  | nil => intro _; cases k <;> rfl
  | cons a t ih =>
    intro hik
    cases k with
    | zero =>
      cases i with
      | zero => exact absurd rfl hik
      | succ m => rfl
    | succ n =>
      cases i with
      | zero => rfl
      | succ m =>
        simp only [listModify, List.getD_cons_succ]
        exact ih n m (by omega)

theorem listModify_getD_eq {α : Type} (f : α → α) (d : α) :
    ∀ (k : Nat) (l : List α), k < l.length →
      (listModify f k l).getD k d = f (l.getD k d) := by
  intro k l
  induction l generalizing k with
  | nil => intro h; simp at h
  | cons a t ih =>
    intro hk
    cases k with
    | zero => rfl
    | succ n =>
      simp only [listModify, List.getD_cons_succ]
      exact ih n (by simpa using hk)

theorem listModify_listModify_same {α : Type} (f g : α → α) :
    ∀ (k : Nat) (l : List α),
      listModify f k (listModify g k l) = listModify (fun a => f (g a)) k l := by
  intro k l
  induction l generalizing k with
  | nil => cases k <;> rfl
  | cons a t ih =>
    cases k with
    | zero => rfl
    | succ n => simp [listModify, ih]

theorem completedWeight_congr (cfg : List StageConfig) {l l' : List StageRec}
    (k : Nat)
    (h : ∀ i, i < k → (l'.getD i default).status = (l.getD i default).status) :
    completedWeight cfg l' k = completedWeight cfg l k := by
  unfold completedWeight
  congr 1
  apply List.map_congr_left
  intro i hi
  rw [h i (List.mem_range.mp hi)]

theorem completedWeight_listModify_self (cfg : List StageConfig)
    (f : StageRec → StageRec) (l : List StageRec) (k : Nat) :
    completedWeight cfg (listModify f k l) k = completedWeight cfg l k := by
  apply completedWeight_congr
  intro i hi
  rw [listModify_getD_ne f default k i l (by omega)]

theorem completedWeight_succ (cfg : List StageConfig) (l : List StageRec) (k : Nat) :
    completedWeight cfg l (k + 1) = completedWeight cfg l k +
      (if (l.getD k default).status = "completed"
       then (cfg.getD k default).duration else 0) := by
  unfold completedWeight
  rw [List.range_succ, List.map_append, List.sum_append]
  simp

theorem completedWeight_nonneg (cfg : List StageConfig) (l : List StageRec) (k : Nat)
    (hd : ∀ sc ∈ cfg, 0 ≤ sc.duration) (hk : k ≤ cfg.length) :
    0 ≤ completedWeight cfg l k := by
  unfold completedWeight
  apply List.sum_nonneg
  intro x hx
  rw [List.mem_map] at hx
  obtain ⟨i, hi, rfl⟩ := hx
  rw [List.mem_range] at hi
  split
  · apply hd
    rw [List.getD_eq_getElem cfg default (by omega)]
    exact List.getElem_mem _
  · exact le_refl 0

theorem incrementWrite_status (cfg : List StageConfig) (ps : ProcState)
    (k : Nat) (dur : ℚ) (step : Nat) :
    (incrementWrite cfg ps k dur step).status = ps.status := rfl

theorem incrementWrite_stages (cfg : List StageConfig) (ps : ProcState)
    (k : Nat) (dur : ℚ) (step : Nat) :
    (incrementWrite cfg ps k dur step).stages =
      listModify (fun r => { r with progress := ((step : ℚ) / (PROGRESS_STEPS : ℚ)) * 100 })
        k ps.stages := rfl

theorem incrementWrite_overall (cfg : List StageConfig) (ps : ProcState)
    (k : Nat) (dur : ℚ) (step : Nat) :
    (incrementWrite cfg ps k dur step).overall_progress =
      min ((completedWeight cfg ps.stages k +
          (((step : ℚ) / (PROGRESS_STEPS : ℚ)) * 100 / 100) * dur)
        / totalWeight cfg * 100) 100 := by
  simp only [incrementWrite]
  rw [completedWeight_listModify_self]

theorem incrementWrite_overwrite (cfg : List StageConfig) (ps : ProcState)
    (k : Nat) (dur : ℚ) (a b : Nat) :
    incrementWrite cfg (incrementWrite cfg ps k dur a) k dur b =
      incrementWrite cfg ps k dur b := by
  simp only [incrementWrite, listModify_listModify_same, completedWeight_listModify_self]

theorem incrementRun_snd (cfg : List StageConfig) (k : Nat) (dur : ℚ) :
    ∀ (steps : List Nat) (s0 : ProcState),
      (incrementRun cfg k dur s0 steps).2 =
        steps.map (incrementWrite cfg s0 k dur) := by
  intro steps
  induction steps with
  | nil => intro s0; rfl
  | cons a rest ih =>
    intro s0
    simp only [incrementRun, List.map_cons, List.cons.injEq, true_and]
    rw [ih]
    apply List.map_congr_left
    intro b _
    exact incrementWrite_overwrite cfg s0 k dur a b

theorem incrementRun_fst (cfg : List StageConfig) (k : Nat) (dur : ℚ) :
    ∀ (steps : List Nat) (s0 : ProcState) (a : Nat), steps.getLast? = some a →
      (incrementRun cfg k dur s0 steps).1 = incrementWrite cfg s0 k dur a := by
  intro steps
  induction steps with
  | nil => intro s0 a h; simp at h
  | cons b rest ih =>
    intro s0 a h
    cases rest with
    | nil =>
      have hb : b = a := by simpa using h
      subst hb
      rfl
    | cons c t =>
      rw [List.getLast?_cons_cons] at h
      show (incrementRun cfg k dur (incrementWrite cfg s0 k dur b) (c :: t)).1 =
        incrementWrite cfg s0 k dur a
      rw [ih (incrementWrite cfg s0 k dur b) a h]
      exact incrementWrite_overwrite cfg s0 k dur b a

theorem progressSteps_cast : (PROGRESS_STEPS : ℚ) = 10 := by
  norm_num [PROGRESS_STEPS]

theorem incrementOverall_mono (W dur T : ℚ) (hd : 0 ≤ dur) (hT : 0 < T)
    {a b : Nat} (hab : a ≤ b) :
    min ((W + ((a : ℚ) / (PROGRESS_STEPS : ℚ) * 100 / 100) * dur) / T * 100) 100 ≤
      min ((W + ((b : ℚ) / (PROGRESS_STEPS : ℚ) * 100 / 100) * dur) / T * 100) 100 := by
  apply min_le_min _ le_rfl
  rw [progressSteps_cast]
  gcongr

theorem stageStartWrite_overall (ps : ProcState) (k : Nat) :
    (stageStartWrite ps k).overall_progress = ps.overall_progress := rfl

theorem stageStartWrite_stages (ps : ProcState) (k : Nat) :
    (stageStartWrite ps k).stages = listModify (fun r =>
      { r with status := "processing", started_at := some "t", progress := 0 })
      k ps.stages := rfl

theorem stageCompleteWrite_overall (ps : ProcState) (k : Nat) :
    (stageCompleteWrite ps k).overall_progress = ps.overall_progress := rfl

theorem stageCompleteWrite_stages (ps : ProcState) (k : Nat) :
    (stageCompleteWrite ps k).stages = listModify (fun r =>
      { r with status := "completed", progress := 100, completed_at := some "t" })
      k ps.stages := rfl

theorem getLast?_range_succ (n : Nat) :
    (List.range (n + 1)).getLast? = some n := by
  rw [List.range_succ, List.getLast?_concat]

theorem stageRun_chain (cfg : List StageConfig) (ps : ProcState) (k : Nat) (dur : ℚ)
    (hdur : (cfg.getD k default).duration = dur)
    (hd : 0 ≤ dur) (hT : 0 < totalWeight cfg)
    (hk : k < cfg.length) (hInv : RunInv cfg k ps) :
    List.Chain' progLe (ps :: (stageRun cfg ps k dur).2)
    ∧ (∀ s ∈ (stageRun cfg ps k dur).2, s.overall_progress ≤ 100)
    ∧ RunInv cfg (k + 1) (stageRun cfg ps k dur).1
    ∧ (ps :: (stageRun cfg ps k dur).2).getLast? = some (stageRun cfg ps k dur).1 := by
  obtain ⟨hlen, hbelow, habove, hb100, hbW⟩ := hInv
  have hkps : k < ps.stages.length := by rw [hlen]; exact hk
  -- the start write
  have hs0len : (stageStartWrite ps k).stages.length = cfg.length := by
    rw [stageStartWrite_stages, listModify_length]
    exact hlen
  have hks0 : k < (stageStartWrite ps k).stages.length := by rw [hs0len]; exact hk
  have hW0 : completedWeight cfg (stageStartWrite ps k).stages k
      = completedWeight cfg ps.stages k := by
    rw [stageStartWrite_stages]
    exact completedWeight_listModify_self cfg _ ps.stages k
  have hs0ne : ∀ j, j ≠ k →
      (stageStartWrite ps k).stages.getD j default = ps.stages.getD j default := by
    intro j hj
    rw [stageStartWrite_stages]
    exact listModify_getD_ne _ default k j ps.stages hj
  have hs0k : ((stageStartWrite ps k).stages.getD k default).progress = 0 := by
    rw [stageStartWrite_stages, listModify_getD_eq _ default k ps.stages hkps]
  -- the increment writes
  have hiwlen : ∀ m : Nat,
      (incrementWrite cfg (stageStartWrite ps k) k dur m).stages.length = cfg.length := by
    intro m
    rw [incrementWrite_stages, listModify_length]
    exact hs0len
  have hiwne : ∀ (m : Nat) (j : Nat), j ≠ k →
      (incrementWrite cfg (stageStartWrite ps k) k dur m).stages.getD j default
        = ps.stages.getD j default := by
    intro m j hj
    rw [incrementWrite_stages, listModify_getD_ne _ default k j _ hj]
    exact hs0ne j hj
  have hiwk : ∀ m : Nat,
      ((incrementWrite cfg (stageStartWrite ps k) k dur m).stages.getD k default).progress
        = ((m : ℚ) / (PROGRESS_STEPS : ℚ)) * 100 := by
    intro m
    rw [incrementWrite_stages, listModify_getD_eq _ default k _ hks0]
  -- monotonicity of increments
  have hiwmono : ∀ a b : Nat, a ≤ b →
      progLe (incrementWrite cfg (stageStartWrite ps k) k dur a)
        (incrementWrite cfg (stageStartWrite ps k) k dur b) := by
    intro a b hab
    constructor
    · rw [incrementWrite_overall, incrementWrite_overall]
      exact incrementOverall_mono _ dur _ hd hT hab
    · intro j
      by_cases hj : j = k
      · rw [hj, hiwk a, hiwk b, progressSteps_cast]
        gcongr
      · rw [hiwne a j hj, hiwne b j hj]
  -- ps -> start write
  have hlink_ps : progLe ps (stageStartWrite ps k) := by
    constructor
    · rw [stageStartWrite_overall]
    · intro j
      by_cases hj : j = k
      · rw [hj, hs0k, (habove k le_rfl hk).2]
      · rw [hs0ne j hj]
  -- start write -> increment 0
  have hlink_s0 : progLe (stageStartWrite ps k)
      (incrementWrite cfg (stageStartWrite ps k) k dur 0) := by
    constructor
    · rw [incrementWrite_overall]
      have h0 : ((0 : Nat) : ℚ) / (PROGRESS_STEPS : ℚ) * 100 / 100 * dur = 0 := by
        rw [progressSteps_cast]
        norm_num
      rw [h0, add_zero, stageStartWrite_overall, hW0]
      exact le_min hbW hb100
    · intro j
      by_cases hj : j = k
      · rw [hj, hs0k, hiwk 0, progressSteps_cast]
        norm_num
      · rw [hiwne 0 j hj, hs0ne j hj]
  -- increment 10 -> completion write
  have hlink_c : progLe (incrementWrite cfg (stageStartWrite ps k) k dur PROGRESS_STEPS)
      (stageCompleteWrite (incrementWrite cfg (stageStartWrite ps k) k dur PROGRESS_STEPS) k) := by
    constructor
    · rw [stageCompleteWrite_overall]
    · intro j
      by_cases hj : j = k
      · rw [hj, stageCompleteWrite_stages,
          listModify_getD_eq _ default k _ (by rw [hiwlen]; exact hk), hiwk, progressSteps_cast]
        norm_num [PROGRESS_STEPS]
      · rw [stageCompleteWrite_stages, listModify_getD_ne _ default k j _ hj]
  -- the run, in explicit form
  have hrun : stageRun cfg ps k dur =
      (stageCompleteWrite (incrementWrite cfg (stageStartWrite ps k) k dur PROGRESS_STEPS) k,
        stageStartWrite ps k ::
          (List.range (PROGRESS_STEPS + 1)).map
            (incrementWrite cfg (stageStartWrite ps k) k dur) ++
          [stageCompleteWrite
            (incrementWrite cfg (stageStartWrite ps k) k dur PROGRESS_STEPS) k]) := by
    simp only [stageRun]
    rw [incrementRun_snd cfg k dur, incrementRun_fst cfg k dur _ _ PROGRESS_STEPS
      (getLast?_range_succ PROGRESS_STEPS)]
  rw [hrun]
  have hmapshape : (List.range (PROGRESS_STEPS + 1)).map
      (incrementWrite cfg (stageStartWrite ps k) k dur)
      = (List.range PROGRESS_STEPS).map
          (incrementWrite cfg (stageStartWrite ps k) k dur)
        ++ [incrementWrite cfg (stageStartWrite ps k) k dur PROGRESS_STEPS] := by
    rw [List.range_succ, List.map_append]
    simp
  refine ⟨?_, ?_, ?_, ?_⟩
  · -- the snapshot chain
    show List.Chain' progLe ((ps :: stageStartWrite ps k ::
      (List.range (PROGRESS_STEPS + 1)).map
        (incrementWrite cfg (stageStartWrite ps k) k dur)) ++
      [stageCompleteWrite
        (incrementWrite cfg (stageStartWrite ps k) k dur PROGRESS_STEPS) k])
    rw [List.chain'_append]
    refine ⟨?_, List.chain'_singleton _, ?_⟩
    · rw [List.chain'_cons]
      refine ⟨hlink_ps, ?_⟩
      rw [List.chain'_cons']
      refine ⟨?_, ?_⟩
      · intro y hy
        have hmap_head : ((List.range (PROGRESS_STEPS + 1)).map
            (incrementWrite cfg (stageStartWrite ps k) k dur)).head?
            = some (incrementWrite cfg (stageStartWrite ps k) k dur 0) := by
          rw [List.range_succ_eq_map]
          rfl
        rw [hmap_head] at hy
        simp only [Option.mem_def, Option.some.injEq] at hy
        subst hy
        exact hlink_s0
      · rw [List.chain'_map, List.chain'_range_succ]
        intro m hm
        exact hiwmono m m.succ (Nat.le_succ m)
    · intro x hx y hy
      rw [List.getLast?_cons_cons, hmapshape,
        show stageStartWrite ps k ::
          ((List.range PROGRESS_STEPS).map
            (incrementWrite cfg (stageStartWrite ps k) k dur)
          ++ [incrementWrite cfg (stageStartWrite ps k) k dur PROGRESS_STEPS])
          = (stageStartWrite ps k ::
            (List.range PROGRESS_STEPS).map
              (incrementWrite cfg (stageStartWrite ps k) k dur))
          ++ [incrementWrite cfg (stageStartWrite ps k) k dur PROGRESS_STEPS] from rfl,
        List.getLast?_concat] at hx
      simp only [List.head?_cons, Option.mem_def, Option.some.injEq] at hx hy
      subst hx
      subst hy
      exact hlink_c
  · -- every written overall progress is at most 100
    intro s hs
    simp only [List.mem_cons, List.mem_append, List.mem_singleton,
      List.mem_map, List.not_mem_nil, or_false] at hs
    rcases hs with (hs | hs) | hs
    · rw [hs, stageStartWrite_overall]
      exact hb100
    · obtain ⟨m, _, hm⟩ := hs
      rw [← hm, incrementWrite_overall]
      exact min_le_right _ _
    · rw [hs, stageCompleteWrite_overall, incrementWrite_overall]
      exact min_le_right _ _
  · -- the invariant advances to stage k + 1
    have hfinne : ∀ j, j ≠ k →
        (stageCompleteWrite
          (incrementWrite cfg (stageStartWrite ps k) k dur PROGRESS_STEPS) k).stages.getD
            j default = ps.stages.getD j default := by
      intro j hj
      rw [stageCompleteWrite_stages, listModify_getD_ne _ default k j _ hj]
      exact hiwne PROGRESS_STEPS j hj
    have hfink : ((stageCompleteWrite
        (incrementWrite cfg (stageStartWrite ps k) k dur PROGRESS_STEPS) k).stages.getD
          k default).status = "completed" := by
      rw [stageCompleteWrite_stages,
        listModify_getD_eq _ default k _ (by rw [hiwlen]; exact hk)]
    have hfinlen : (stageCompleteWrite
        (incrementWrite cfg (stageStartWrite ps k) k dur PROGRESS_STEPS) k).stages.length
          = cfg.length := by
      rw [stageCompleteWrite_stages, listModify_length, hiwlen]
    refine ⟨hfinlen, ?_, ?_, ?_, ?_⟩
    · intro i hi
      by_cases hik : i = k
      · rw [hik]
        exact hfink
      · rw [hfinne i hik]
        exact hbelow i (by omega)
    · intro i hi1 hi2
      rw [hfinne i (by omega)]
      exact habove i (by omega) hi2
    · rw [stageCompleteWrite_overall, incrementWrite_overall]
      exact min_le_right _ _
    · rw [stageCompleteWrite_overall, incrementWrite_overall]
      have hsucc : completedWeight cfg (stageCompleteWrite
          (incrementWrite cfg (stageStartWrite ps k) k dur PROGRESS_STEPS) k).stages (k + 1)
          = completedWeight cfg (stageCompleteWrite
              (incrementWrite cfg (stageStartWrite ps k) k dur PROGRESS_STEPS) k).stages k
            + (cfg.getD k default).duration := by
        rw [completedWeight_succ, hfink]
        simp
      have hWf : completedWeight cfg (stageCompleteWrite
          (incrementWrite cfg (stageStartWrite ps k) k dur PROGRESS_STEPS) k).stages k
          = completedWeight cfg (stageStartWrite ps k).stages k := by
        apply completedWeight_congr
        intro i hi
        rw [hfinne i (by omega), hs0ne i (by omega)]
      have hc1 : ((PROGRESS_STEPS : Nat) : ℚ) / (PROGRESS_STEPS : ℚ) * 100 / 100 * dur
          = dur := by
        rw [progressSteps_cast]
        norm_num
      rw [hsucc, hWf, hdur, hc1]
      exact min_le_left _ _
  · -- the final state is the last snapshot
    show (( ps :: stageStartWrite ps k ::
      (List.range (PROGRESS_STEPS + 1)).map
        (incrementWrite cfg (stageStartWrite ps k) k dur)) ++
      [stageCompleteWrite
        (incrementWrite cfg (stageStartWrite ps k) k dur PROGRESS_STEPS) k]).getLast?
      = some (stageCompleteWrite
        (incrementWrite cfg (stageStartWrite ps k) k dur PROGRESS_STEPS) k)
    rw [List.getLast?_concat]

theorem stagesRun_chain (cfg : List StageConfig)
    (hT : 0 < totalWeight cfg) (hdall : ∀ sc ∈ cfg, 0 ≤ sc.duration) :
    ∀ (l : List StageConfig) (j : Nat) (ps : ProcState),
      cfg.drop j = l → RunInv cfg j ps →
      List.Chain' progLe (ps :: (stagesRun cfg ps (List.enumFrom j l)).2)
      ∧ (∀ s ∈ (stagesRun cfg ps (List.enumFrom j l)).2, s.overall_progress ≤ 100)
      ∧ RunInv cfg (j + l.length) (stagesRun cfg ps (List.enumFrom j l)).1
      ∧ (ps :: (stagesRun cfg ps (List.enumFrom j l)).2).getLast?
          = some (stagesRun cfg ps (List.enumFrom j l)).1 := by
  intro l
  induction l with
  | nil =>
    intro j ps _ hInv
    refine ⟨List.chain'_singleton ps, ?_, by simpa using hInv, rfl⟩
    intro s hs
    simp only [List.enumFrom, stagesRun] at hs
    exact absurd hs (List.not_mem_nil s)
  | cons sc rest ih =>
    intro j ps hdrop hInv
    have hjlt : j < cfg.length := by
      by_contra hge
      rw [List.drop_eq_nil_of_le (by omega)] at hdrop
      exact (List.cons_ne_nil sc rest) hdrop.symm
    have hget : cfg.getD j default = sc := by
      have h0 : (cfg.drop j)[0]? = some sc := by
        rw [hdrop]
        simp
      rw [List.getElem?_drop, Nat.add_zero] at h0
      rw [List.getD_eq_getElem?_getD, h0]
      rfl
    have hscmem : sc ∈ cfg := by
      have hmem : sc ∈ cfg.drop j := by
        rw [hdrop]
        exact List.mem_cons_self sc rest
      exact List.mem_of_mem_drop hmem
    have hdd : 0 ≤ sc.duration := hdall sc hscmem
    have hdropsucc : cfg.drop (j + 1) = rest := by
      rw [← List.tail_drop, hdrop]
      rfl
    obtain ⟨hchain1, hb1, hInv1, hlast1⟩ :=
      stageRun_chain cfg ps j sc.duration (by rw [hget]) hdd hT hjlt hInv
    obtain ⟨hchain2, hb2, hInv2, hlast2⟩ :=
      ih (j + 1) (stageRun cfg ps j sc.duration).1 hdropsucc hInv1
    have hunfold : stagesRun cfg ps (List.enumFrom j (sc :: rest))
        = ((stagesRun cfg (stageRun cfg ps j sc.duration).1
              (List.enumFrom (j + 1) rest)).1,
           (stageRun cfg ps j sc.duration).2 ++
             (stagesRun cfg (stageRun cfg ps j sc.duration).1
               (List.enumFrom (j + 1) rest)).2) := rfl
    rw [hunfold]
    refine ⟨?_, ?_, ?_, ?_⟩
    · show List.Chain' progLe
        ((ps :: (stageRun cfg ps j sc.duration).2) ++
          (stagesRun cfg (stageRun cfg ps j sc.duration).1
            (List.enumFrom (j + 1) rest)).2)
      rw [List.chain'_append]
      refine ⟨hchain1, hchain2.tail, ?_⟩
      intro x hx y hy
      rw [hlast1] at hx
      simp only [Option.mem_def, Option.some.injEq] at hx
      subst hx
      exact (List.chain'_cons'.mp hchain2).1 y hy
    · intro s hs
      rw [List.mem_append] at hs
      rcases hs with hs | hs
      · exact hb1 s hs
      · exact hb2 s hs
    · have heq : j + (sc :: rest).length = j + 1 + rest.length := by
        simp only [List.length_cons]
        omega
      rw [heq]
      exact hInv2
    · show ((ps :: (stageRun cfg ps j sc.duration).2) ++
          (stagesRun cfg (stageRun cfg ps j sc.duration).1
            (List.enumFrom (j + 1) rest)).2).getLast?
        = some (stagesRun cfg (stageRun cfg ps j sc.duration).1
            (List.enumFrom (j + 1) rest)).1
      cases hr2 : (stagesRun cfg (stageRun cfg ps j sc.duration).1
          (List.enumFrom (j + 1) rest)).2 with
      | nil =>
        rw [hr2] at hlast2
        simp only [List.getLast?_singleton, Option.some.injEq] at hlast2
        rw [List.append_nil, hlast1]
        exact congrArg some hlast2
      | cons z t =>
        rw [List.getLast?_append_cons]
        rw [hr2, List.getLast?_cons_cons] at hlast2
        exact hlast2

theorem runInv_init (cfg : List StageConfig) : RunInv cfg 0 (initProcState cfg) := by
  refine ⟨?_, ?_, ?_, ?_, ?_⟩
  · simp [initProcState, initStages]
  · intro i hi
    omega
  · intro i _ hi
    have hlen : i < (initStages cfg).length := by
      simpa [initStages] using hi
    have hget : (initProcState cfg).stages.getD i default
        = { id := (cfg.getD i default).id, name := (cfg.getD i default).name,
            icon := (cfg.getD i default).icon, status := "queued", progress := 0,
            started_at := none, completed_at := none } := by
      show (initStages cfg).getD i default = _
      rw [List.getD_eq_getElem _ _ hlen]
      simp only [initStages, List.getElem_map]
      rw [List.getD_eq_getElem _ _ hi]
    rw [hget]
    exact ⟨rfl, rfl⟩
  · show (0 : ℚ) ≤ 100
    norm_num
  · show (0 : ℚ) ≤ completedWeight cfg (initProcState cfg).stages 0 / totalWeight cfg * 100
    simp [completedWeight]

/-- **C4**: over the sequence of `ProcessingStatus` snapshots persisted by an
uninterrupted background processing run over the configured stages, the
overall progress and every stage's progress are monotonically non-decreasing
write after write, and the overall progress never exceeds 100. -/
theorem c4_progress_monotone :
    List.Chain' (· ≤ ·) (processRunSnapshots.map (fun s => s.overall_progress))
    ∧ (∀ s ∈ processRunSnapshots, s.overall_progress ≤ 100)
    ∧ ∀ k, List.Chain' (· ≤ ·)
        (processRunSnapshots.map (fun s => (s.stages.getD k default).progress)) := by
  have hT : 0 < totalWeight PROCESSING_STAGES := by
    norm_num [totalWeight, PROCESSING_STAGES]
  have hdall : ∀ sc ∈ PROCESSING_STAGES, 0 ≤ sc.duration := by
    intro sc hsc
    fin_cases hsc <;> norm_num
  obtain ⟨hchain, hb, hInvEnd, hlast⟩ :=
    stagesRun_chain PROCESSING_STAGES hT hdall PROCESSING_STAGES 0
      (initProcState PROCESSING_STAGES) rfl (runInv_init PROCESSING_STAGES)
  have hunfold : processRunSnapshots
      = initProcState PROCESSING_STAGES ::
          (stagesRun PROCESSING_STAGES (initProcState PROCESSING_STAGES)
            (List.enumFrom 0 PROCESSING_STAGES)).2 ++
          [{ (stagesRun PROCESSING_STAGES (initProcState PROCESSING_STAGES)
                (List.enumFrom 0 PROCESSING_STAGES)).1 with
              status := "completed", overall_progress := 100 }] := rfl
  have hfinal : progLe
      (stagesRun PROCESSING_STAGES (initProcState PROCESSING_STAGES)
        (List.enumFrom 0 PROCESSING_STAGES)).1
      { (stagesRun PROCESSING_STAGES (initProcState PROCESSING_STAGES)
            (List.enumFrom 0 PROCESSING_STAGES)).1 with
          status := "completed", overall_progress := 100 } := by
    constructor
    · exact hInvEnd.2.2.2.1
    · intro j
      exact le_rfl
  have hchainFull : List.Chain' progLe processRunSnapshots := by
    rw [hunfold]
    show List.Chain' progLe
      ((initProcState PROCESSING_STAGES ::
        (stagesRun PROCESSING_STAGES (initProcState PROCESSING_STAGES)
          (List.enumFrom 0 PROCESSING_STAGES)).2) ++
        [{ (stagesRun PROCESSING_STAGES (initProcState PROCESSING_STAGES)
              (List.enumFrom 0 PROCESSING_STAGES)).1 with
            status := "completed", overall_progress := 100 }])
    rw [List.chain'_append]
    refine ⟨hchain, List.chain'_singleton _, ?_⟩
    intro x hx y hy
    rw [hlast] at hx
    simp only [Option.mem_def, Option.some.injEq, List.head?_cons] at hx hy
    subst hx
    subst hy
    exact hfinal
  have hbFull : ∀ s ∈ processRunSnapshots, s.overall_progress ≤ 100 := by
    rw [hunfold]
    intro s hs
    simp only [List.mem_cons, List.mem_append, List.mem_singleton,
      List.not_mem_nil, or_false] at hs
    rcases hs with (hs | hs) | hs
    · rw [hs]
      show (0 : ℚ) ≤ 100
      norm_num
    · exact hb s hs
    · rw [hs]
  refine ⟨?_, hbFull, ?_⟩
  · rw [List.chain'_map]
    exact hchainFull.imp (fun a b h => h.1)
  · intro k
    rw [List.chain'_map]
    exact hchainFull.imp (fun a b h => h.2 k)


end BSAnalytics
